import Mathlib

/-!
Verification development for the tanstack-bun repository's server-function
RPC layer and selective-SSR dispatcher (src/unnamed/part_005, with the HTTP
dispatcher of src/unnamed/part_000).

The data model and the operations are shallowly embedded:

* JavaScript JSON values are modelled by `JValue` (strings as `List Char`,
  numbers as integers; fractional doubles are outside the modelled fragment,
  which suffices for every claim).  `jstringify`/`jparse` model the host's
  `JSON.stringify`/`JSON.parse` on this fragment (no insignificant
  whitespace, which is all the serializer ever emits).
* The module-level mutable globals of server-fn.ts (`contextStorage`,
  `currentContextKey`, and the `Symbol()` allocator) become an explicit
  `Store` record threaded through every operation; `Symbol("context")`
  becomes a fresh natural number drawn from `Store.nextKey`.  The `events`
  field is ghost instrumentation written only by test middlewares/handlers,
  never by the embedded source functions.
* Fallible code returns `Except JErr`; an `Except.error` escaping a function
  models a JavaScript exception propagating out of it.
-/

namespace TanstackBun

/-! ## JSON values (the `unknown` data crossing the RPC boundary) -/

/-- A JSON value as produced by `JSON.parse`.  Strings are lists of unicode
scalars; numbers are modelled as integers (the only numerics exercised by the
code and the claims). -/
inductive JValue where
  | jnull : JValue
  | jbool (b : Bool) : JValue
  | jnum (n : Int) : JValue
  | jstr (s : List Char) : JValue
  | jarr (elems : List JValue) : JValue
  | jobj (fields : List (List Char × JValue)) : JValue

/-- Hex digit character (lowercase), as used by `JSON.stringify` in
`\u00XX` escapes. -/
def hexDigit (n : Nat) : Char :=
  if n < 10 then Char.ofNat (48 + n) else Char.ofNat (87 + n)

/-- The escape sequence `JSON.stringify` emits for one character inside a
string literal. -/
def escChar (c : Char) : List Char :=
  if c = '"' then ['\\', '"']
  else if c = '\\' then ['\\', '\\']
  else if c = '\x08' then ['\\', 'b']
  else if c = '\x0c' then ['\\', 'f']
  else if c = '\n' then ['\\', 'n']
  else if c = '\r' then ['\\', 'r']
  else if c = '\t' then ['\\', 't']
  else if c.toNat < 32 then
    ['\\', 'u', '0', '0', hexDigit (c.toNat / 16), hexDigit (c.toNat % 16)]
  else [c]

/-- Escape a whole string body. -/
def escStr : List Char → List Char
  | [] => []
  | c :: cs => escChar c ++ escStr cs

/-- Decimal digits of a natural number, most significant first (fuelled so
that the definition reduces in the kernel; any fuel above `n` is enough). -/
def natDigitsGo (fuel n : Nat) : List Char :=
  match fuel with
  | 0 => []
  | f + 1 =>
    if n < 10 then [Char.ofNat (48 + n)]
    else natDigitsGo f (n / 10) ++ [Char.ofNat (48 + n % 10)]

/-- Decimal digits of a natural number, most significant first. -/
def natDigits (n : Nat) : List Char := natDigitsGo (n + 1) n

/-- Decimal rendering of an integer, as `JSON.stringify` prints integral
numbers. -/
def intChars (n : Int) : List Char :=
  if n < 0 then '-' :: natDigits n.natAbs else natDigits n.natAbs

mutual

/-- `JSON.stringify` on the modelled fragment (char-list form).  Emits no
whitespace, object fields in order, strings escaped by `escChar`. -/
def jstringifyL : JValue → List Char
  | .jnull => ['n', 'u', 'l', 'l']
  | .jbool true => ['t', 'r', 'u', 'e']
  | .jbool false => ['f', 'a', 'l', 's', 'e']
  | .jnum n => intChars n
  | .jstr s => '"' :: (escStr s ++ ['"'])
  | .jarr elems => '[' :: (jstringifyElems elems ++ [']'])
  | .jobj fields => '\x7b' :: (jstringifyFields fields ++ ['\x7d'])

/-- Comma-separated serialization of array elements. -/
def jstringifyElems : List JValue → List Char
  | [] => []
  | [v] => jstringifyL v
  | v :: vs => jstringifyL v ++ ',' :: jstringifyElems vs

/-- Comma-separated serialization of object fields. -/
def jstringifyFields : List (List Char × JValue) → List Char
  | [] => []
  | [(k, v)] => '"' :: (escStr k ++ ['"']) ++ ':' :: jstringifyL v
  | (k, v) :: fs =>
    '"' :: (escStr k ++ ['"']) ++ ':' :: jstringifyL v ++ ',' :: jstringifyFields fs

end

/-- `JSON.stringify` producing a Lean `String`. -/
def jstringify (v : JValue) : String := ⟨jstringifyL v⟩

/-- Numeric value of a hex digit character accepted inside `\uXXXX`. -/
def hexVal (c : Char) : Option Nat :=
  if 48 ≤ c.toNat ∧ c.toNat ≤ 57 then some (c.toNat - 48)
  else if 97 ≤ c.toNat ∧ c.toNat ≤ 102 then some (c.toNat - 87)
  else if 65 ≤ c.toNat ∧ c.toNat ≤ 70 then some (c.toNat - 55)
  else none

/-- Parse the body of a JSON string literal (after the opening quote),
returning the decoded characters and the remainder after the closing quote.
Raw control characters are rejected, as `JSON.parse` does. -/
def parseStr : List Char → Option (List Char × List Char)
  | [] => none
  | c :: rest =>
    if c = '"' then some ([], rest)
    else if c = '\\' then
      match rest with
      | [] => none
      | e :: r2 =>
        if e = '"' then (parseStr r2).map (fun p => ('"' :: p.1, p.2))
        else if e = '\\' then (parseStr r2).map (fun p => ('\\' :: p.1, p.2))
        else if e = '/' then (parseStr r2).map (fun p => ('/' :: p.1, p.2))
        else if e = 'b' then (parseStr r2).map (fun p => ('\x08' :: p.1, p.2))
        else if e = 'f' then (parseStr r2).map (fun p => ('\x0c' :: p.1, p.2))
        else if e = 'n' then (parseStr r2).map (fun p => ('\n' :: p.1, p.2))
        else if e = 'r' then (parseStr r2).map (fun p => ('\r' :: p.1, p.2))
        else if e = 't' then (parseStr r2).map (fun p => ('\t' :: p.1, p.2))
        else if e = 'u' then
          match r2 with
          | h1 :: h2 :: h3 :: h4 :: r3 =>
            match hexVal h1, hexVal h2, hexVal h3, hexVal h4 with
            | some a, some b, some c3, some d =>
              (parseStr r3).map
                (fun p => (Char.ofNat (((a * 16 + b) * 16 + c3) * 16 + d) :: p.1, p.2))
            | _, _, _, _ => none
          | _ => none
        else none
    else if c.toNat < 32 then none
    else (parseStr rest).map (fun p => (c :: p.1, p.2))

/-- Is `c` a decimal digit? -/
def isDigit (c : Char) : Bool := 48 ≤ c.toNat && c.toNat ≤ 57

/-- Split off the leading run of decimal digits. -/
def takeDigits : List Char → List Char × List Char
  | [] => ([], [])
  | c :: rest =>
    if isDigit c then
      let p := takeDigits rest
      (c :: p.1, p.2)
    else ([], c :: rest)

/-- Numeric value of a digit run. -/
def digitsVal (ds : List Char) : Nat :=
  ds.foldl (fun acc c => acc * 10 + (c.toNat - 48)) 0

/-- The `null` keyword tail after its leading `n`. -/
def expectNull : List Char → Option (JValue × List Char)
  | 'u' :: 'l' :: 'l' :: r => some (.jnull, r)
  | _ => none

/-- The `true` keyword tail after its leading `t`. -/
def expectTrue : List Char → Option (JValue × List Char)
  | 'r' :: 'u' :: 'e' :: r => some (.jbool true, r)
  | _ => none

/-- The `false` keyword tail after its leading `f`. -/
def expectFalse : List Char → Option (JValue × List Char)
  | 'a' :: 'l' :: 's' :: 'e' :: r => some (.jbool false, r)
  | _ => none

/-- A negative number's digit run after its leading `-`. -/
def parseNeg (rest : List Char) : Option (JValue × List Char) :=
  match takeDigits rest with
  | ([], _) => none
  | (d :: ds, r) => some (.jnum (-(digitsVal (d :: ds) : Int)), r)

mutual

/-- Fuel-indexed recursive-descent parser for the modelled JSON fragment:
the semantics of `JSON.parse` on input without insignificant whitespace
(the only inputs the code can produce with `JSON.stringify`) and with
integral numbers.  Returns the value and the unconsumed remainder. -/
def parseV : Nat → List Char → Option (JValue × List Char)
  | 0, _ => none
  | _ + 1, [] => none
  | f + 1, c :: rest =>
    if c = 'n' then expectNull rest
    else if c = 't' then expectTrue rest
    else if c = 'f' then expectFalse rest
    else if c = '"' then
      (parseStr rest).map (fun p => (.jstr p.1, p.2))
    else if c = '[' then
      match rest with
      | [] => none
      | d :: r =>
        if d = ']' then some (.jarr [], r)
        else (parseElems f (d :: r)).map (fun p => (.jarr p.1, p.2))
    else if c = '\x7b' then
      match rest with
      | [] => none
      | d :: r =>
        if d = '\x7d' then some (.jobj [], r)
        else (parseFields f (d :: r)).map (fun p => (.jobj p.1, p.2))
    else if c = '-' then parseNeg rest
    else if isDigit c then
      some (.jnum (digitsVal (takeDigits (c :: rest)).1 : Int),
            (takeDigits (c :: rest)).2)
    else none

/-- Parse one or more comma-separated array elements up to the closing
bracket. -/
def parseElems : Nat → List Char → Option (List JValue × List Char)
  | 0, _ => none
  | f + 1, input =>
    match parseV f input with
    | none => none
    | some (v, rest) =>
      match rest with
      | [] => none
      | d :: r2 =>
        if d = ',' then (parseElems f r2).map (fun p => (v :: p.1, p.2))
        else if d = ']' then some ([v], r2)
        else none

/-- Parse one or more comma-separated object fields up to the closing
brace. -/
def parseFields : Nat → List Char → Option (List (List Char × JValue) × List Char)
  | 0, _ => none
  | f + 1, input =>
    match input with
    | [] => none
    | q :: r1 =>
      if q = '"' then
        match parseStr r1 with
        | none => none
        | some (k, r2) =>
          match r2 with
          | [] => none
          | col :: r3 =>
            if col = ':' then
              match parseV f r3 with
              | none => none
              | some (v, r4) =>
                match r4 with
                | [] => none
                | d :: r5 =>
                  if d = ',' then
                    (parseFields f r5).map (fun p => ((k, v) :: p.1, p.2))
                  else if d = '\x7d' then some ([(k, v)], r5)
                  else none
            else none
      else none

end

/-- Errors thrown in the server-function layer.  `redirectErr`, `notFoundErr`
and `httpErr` are the control-flow signal classes of server-fn.ts; `zodErr`
is a validation failure carrying zod's per-field issues; `syntaxErr` is the
host's `SyntaxError` from `JSON.parse`; `genericErr` carries the `String(error)`
rendering of any other thrown value. -/
inductive JErr where
  | redirectErr (url : String) (status : Nat) : JErr
  | notFoundErr (msg : String) : JErr
  | httpErr (status : Nat) (msg : String) : JErr
  | zodErr (issues : List (List (List Char) × List Char)) : JErr
  | syntaxErr (msg : String) : JErr
  | genericErr (msg : String) : JErr

/-- `JSON.parse` on the modelled fragment: parse the whole string, reject
trailing input. -/
def jparse (s : String) : Except JErr JValue :=
  match parseV (s.data.length + 1) s.data with
  | some (v, []) => .ok v
  | _ => .error (.syntaxErr "Unexpected token in JSON")

/-! ## Requests, headers, and the invocation context store

The module-level globals of server-fn.ts (`contextStorage : Map<symbol,
ServerFnContext>` and `currentContextKey : symbol | null`) become the
explicit `Store` record; a fresh `Symbol("context")` is a fresh natural
number from `Store.nextKey`.  Header names are matched verbatim: the code
reads and writes each header under one consistent spelling, so the
case-insensitive normalisation of the host's `Headers` never matters. -/

/-- Response/request header list (`Headers` as name-value pairs). -/
abbrev HeaderList := List (String × String)

/-- `Headers.set` / object-key override: replace the value in place if the
name is present, otherwise append. -/
def hset : HeaderList → String → String → HeaderList
  | [], n, v => [(n, v)]
  | (n', v') :: rest, n, v =>
    if n' = n then (n, v) :: rest else (n', v') :: hset rest n v

/-- `Headers.get`: first entry with the given name. -/
def hget : HeaderList → String → Option String
  | [], _ => none
  | (n', v') :: rest, n => if n' = n then some v' else hget rest n

/-- The object literal `\x7b Location: url, ...Object.fromEntries(headers) \x7d`:
start from `base` and write every entry of `extra` over it. -/
def mergeHeaders (base extra : HeaderList) : HeaderList :=
  extra.foldl (fun acc p => hset acc p.1 p.2) base

/-- One inbound `Request` as far as the embedded code observes it:
`pathname`/`searchInput?` stand for `new URL(request.url)` and
`url.searchParams.get("input")`; `formInput` is the record that
`parseFormData(request)` would deliver (the platform's multipart decoding
itself is not modelled). -/
structure Request where
  method : String := "POST"
  pathname : String := "/"
  searchInput? : Option String := none
  headers : HeaderList := []
  body : String := ""
  formInput : JValue := .jnull

/-- The per-invocation `ServerFnContext` of server-fn.ts. -/
structure ServerFnContext where
  request : Request
  headers : HeaderList
  responseHeaders : HeaderList
  responseStatus : Nat

/-- Ghost observation events recorded by instrumented test middlewares and
handlers (never by the embedded source functions). -/
inductive Ev where
  | mwCalled (i : Nat) : Ev
  | handlerCalled : Ev

/-- The process-wide mutable state of server-fn.ts: the context store map,
the single `currentContextKey` slot, and the symbol allocator.  `events` is
the ghost trace. -/
structure Store where
  contextStorage : List (Nat × ServerFnContext) := []
  currentContextKey : Option Nat := none
  nextKey : Nat := 0
  events : List Ev := []

/-- The store at process start. -/
def initStore : Store := {}

/-- `Map.get` on the context store. -/
def lookupCtx : List (Nat × ServerFnContext) → Nat → Option ServerFnContext
  | [], _ => none
  | (k, c) :: rest, key => if k = key then some c else lookupCtx rest key

/-- `getRequestContext()`: dereference the global `currentContextKey`,
throwing when no invocation is current or the key has no entry. -/
def getRequestContext (s : Store) : Except JErr ServerFnContext :=
  match s.currentContextKey with
  | none =>
    .error (.genericErr
      "Error: getRequestContext() must be called within a server function")
  | some key =>
    match lookupCtx s.contextStorage key with
    | none => .error (.genericErr "Error: No request context available")
    | some ctx => .ok ctx

/-- Mutate the context object that `getRequestContext()` currently
designates (the object lives in the store map, so the write goes through the
map entry). -/
def updateCurrentCtx (f : ServerFnContext → ServerFnContext) (s : Store) :
    Except JErr Unit × Store :=
  match s.currentContextKey with
  | none =>
    (.error (.genericErr
      "Error: getRequestContext() must be called within a server function"), s)
  | some key =>
    match lookupCtx s.contextStorage key with
    | none => (.error (.genericErr "Error: No request context available"), s)
    | some _ =>
      (.ok (),
       { s with contextStorage :=
          s.contextStorage.map (fun p => if p.1 = key then (p.1, f p.2) else p) })

/-- `setResponseHeader(name, value)`:
`getRequestContext().responseHeaders.set(name, value)`. -/
def setResponseHeader (name value : String) (s : Store) : Except JErr Unit × Store :=
  updateCurrentCtx
    (fun c => { c with responseHeaders := hset c.responseHeaders name value }) s

/-- `setResponseStatus(status)`: `getRequestContext().responseStatus = status`. -/
def setResponseStatus (status : Nat) (s : Store) : Except JErr Unit × Store :=
  updateCurrentCtx (fun c => { c with responseStatus := status }) s

/-! ## Server-function registry and executor -/

/-- A validator: `unknown -> T`, throwing on malformed input (zod's `parse`
or a plain function). -/
def Validator := Option JValue → Except JErr (Option JValue)

/-- A middleware function, as consumed by the executor's chain loop: it
receives the request and the accumulated data and its return value replaces
the accumulated data.  (The loop's `next` continuation only pre-writes the
same variable that the loop then overwrites with the middleware's return
value, so it is absorbed by this signature.) -/
def Mw := Request → JValue → Store → Except JErr JValue × Store

/-- A handler: receives the validated input and (by reference, i.e. by store
key) the invocation's context object. -/
def Handler := Option JValue → Nat → Store → Except JErr JValue × Store

/-- One registered `ServerFnConfig`. -/
structure ServerFnConfig where
  name : String
  method : String := "POST"
  validator? : Option Validator := none
  middlewares : List Mw := []
  handler? : Option Handler := none

/-- The `serverFnRegistry` map (insertion-ordered name-config pairs). -/
abbrev Registry := List (String × ServerFnConfig)

/-- `serverFnRegistry.get(name)`. -/
def findCfg : Registry → String → Option ServerFnConfig
  | [], _ => none
  | (n, c) :: rest, name => if n = name then some c else findCfg rest name

/-- The context-establishment prefix of `executeServerFn` (and of
`handleServerFn`, which differs only in the initial response headers): mint
a key, point the global `currentContextKey` at it, and register a fresh
context.  This runs synchronously, with no interleaving point inside. -/
def setupCtx (initHeaders : HeaderList) (req : Request) (s : Store) : Nat × Store :=
  let contextKey := s.nextKey
  let context : ServerFnContext :=
    { request := req, headers := req.headers,
      responseHeaders := initHeaders, responseStatus := 200 }
  (contextKey,
   { s with nextKey := s.nextKey + 1,
            currentContextKey := some contextKey,
            contextStorage := (contextKey, context) :: s.contextStorage })

/-- The `finally` block of `executeServerFn`:
`contextStorage.delete(contextKey); currentContextKey = null`. -/
def exCleanup (contextKey : Nat) (s : Store) : Store :=
  { s with contextStorage := s.contextStorage.filter (fun p => p.1 ≠ contextKey),
           currentContextKey := none }

/-- The executor's middleware loop: run each middleware in declaration
order, feeding it the accumulated data and replacing the data with its
return value; abort on the first thrown exception. -/
def runMiddlewares (req : Request) : List Mw → JValue → Store → Except JErr JValue × Store
  | [], data, s => (.ok data, s)
  | mw :: rest, data, s =>
    match mw req data s with
    | (.ok d, s1) => runMiddlewares req rest d s1
    | (.error e, s1) => (.error e, s1)

/-- The `try` body of `executeServerFn`: validate, run the middleware chain,
then invoke the handler. -/
def execBody (cfg : ServerFnConfig) (input : Option JValue) (req : Request)
    (contextKey : Nat) (s : Store) : Except JErr JValue × Store :=
  match (match cfg.validator? with | none => Except.ok input | some v => v input) with
  | .error e => (.error e, s)
  | .ok validatedInput =>
    match runMiddlewares req cfg.middlewares (.jobj []) s with
    | (.error e, s1) => (.error e, s1)
    | (.ok _, s1) =>
      match cfg.handler? with
      | none => (.error (.genericErr "Error: No handler defined for server function"), s1)
      | some h => h validatedInput contextKey s1

/-- `executeServerFn(name, input, request)`: look up the config, establish a
fresh context, run the body, and unconditionally clean the context up. -/
def executeServerFn (reg : Registry) (name : String) (input : Option JValue)
    (req : Request) (s : Store) : Except JErr JValue × Store :=
  match findCfg reg name with
  | none => (.error (.notFoundErr ("Unknown server function: " ++ name)), s)
  | some cfg =>
    let p := setupCtx [] req s
    let r := execBody cfg input req p.1 p.2
    (r.1, exCleanup p.1 r.2)

/-! ## The HTTP entry point `handleServerFn` -/

/-- `String.prototype.split` on a single character. -/
def splitChar (sep : Char) : List Char → List (List Char)
  | [] => [[]]
  | c :: rest =>
    match splitChar sep rest with
    | [] => [[]]
    | g :: gs => if c = sep then [] :: g :: gs else (c :: g) :: gs

/-- Prefix test on character lists. -/
def listPre : List Char → List Char → Bool
  | [], _ => true
  | _ :: _, [] => false
  | a :: restA, b :: restB => a = b && listPre restA restB

/-- Substring test on character lists. -/
def listSub (needle : List Char) : List Char → Bool
  | [] => listPre needle []
  | c :: rest => listPre needle (c :: rest) || listSub needle rest

/-- `String.prototype.includes`. -/
def containsSub (needle hay : String) : Bool := listSub needle.data hay.data

/-- JavaScript property access `v[key]` on a parsed JSON value: on objects
the last field with that name wins (as `JSON.parse` builds objects),
`undefined` (`none`) otherwise. -/
def getField (v : JValue) (key : String) : Option JValue :=
  match v with
  | .jobj fields =>
    fields.foldl (fun acc f => if f.1 = key.data then some f.2 else acc) none
  | _ => none

/-- Coerce a JSON value used as a string name. -/
def asStr : JValue → Option String
  | .jstr s => some ⟨s⟩
  | _ => none

/-- The request-decoding prefix of `handleServerFn` — everything before the
`try` block, so an `Except.error` here models an exception escaping
`handleServerFn` itself.  Resolves the function name and the raw input from
path, query, body or form data.  In the legacy branches a missing or
non-string `name` (JavaScript `undefined`) is modelled as the empty string,
which no registry in this development registers; `input ?? formData` treats
`null` and a missing field alike, as the nullish operator does. -/
def parseRequestPhase (req : Request) : Except JErr (String × Option JValue) :=
  let pathParts :=
    ((splitChar '/' req.pathname.data).map (fun l => (⟨l⟩ : String))).filter
      (fun p => p ≠ "")
  let contentType := (hget req.headers "content-type").getD ""
  let isForm := containsSub "multipart/form-data" contentType
    || containsSub "application/x-www-form-urlencoded" contentType
  match pathParts with
  | "_server-fn" :: name :: _ =>
    if req.method = "GET" then
      match req.searchInput? with
      | some p => if p = "" then .ok (name, none)
                  else (jparse p).map (fun v => (name, some v))
      | none => .ok (name, none)
    else if isForm then .ok (name, some req.formInput)
    else if req.body = "" then .ok (name, none)
    else (jparse req.body).map (fun v => (name, some v))
  | _ =>
    if isForm then
      let fd := req.formInput
      let name := ((getField fd "name").bind asStr).getD ""
      let input := match getField fd "input" with
        | some .jnull => some fd
        | some v => some v
        | none => some fd
      .ok (name, input)
    else
      (jparse req.body).map (fun parsed =>
        (((getField parsed "name").bind asStr).getD "", getField parsed "input"))

/-- What `handleServerFn` hands to the transport: status, headers and body
of the constructed `Response` (`none` = null body). -/
structure JResponse where
  status : Nat
  headers : HeaderList
  body : Option String

/-- Serialize one zod issue as it appears in the 400 response body (`path`
and `message`; zod's remaining diagnostic fields are elided). -/
def issueToJ (iss : List (List Char) × List Char) : JValue :=
  .jobj [("path".data, .jarr (iss.1.map .jstr)), ("message".data, .jstr iss.2)]

/-- `handleServerFn(request)`: decode the request (outside the `try`), set
up this function's own context, run `executeServerFn`, and translate its
outcome into a `Response` per the catch chain; the `finally` block removes
this function's context entry.  Note that the `Response` is built from the
local `context` object of `handleServerFn` — which is a different object
from the one `executeServerFn` installs for the handler. -/
def handleServerFn (reg : Registry) (req : Request) (s : Store) :
    Except JErr JResponse × Store :=
  match parseRequestPhase req with
  | .error e => (.error e, s)
  | .ok (name, input) =>
    let p := setupCtx [("Content-Type", "application/json")] req s
    let contextKey := p.1
    let r := executeServerFn reg name input req p.2
    let ctxNow := (lookupCtx r.2.contextStorage contextKey).getD
      { request := req, headers := req.headers,
        responseHeaders := [("Content-Type", "application/json")],
        responseStatus := 200 }
    let resp : JResponse :=
      match r.1 with
      | .ok result =>
        { status := ctxNow.responseStatus, headers := ctxNow.responseHeaders,
          body := some (jstringify result) }
      | .error (.redirectErr url st) =>
        { status := st,
          headers := mergeHeaders [("Location", url)] ctxNow.responseHeaders,
          body := none }
      | .error (.notFoundErr m) =>
        { status := 404, headers := [("Content-Type", "application/json")],
          body := some (jstringify (.jobj [("error".data, .jstr m.data)])) }
      | .error (.httpErr st m) =>
        { status := st, headers := [("Content-Type", "application/json")],
          body := some (jstringify (.jobj [("error".data, .jstr m.data)])) }
      | .error (.zodErr issues) =>
        { status := 400, headers := [("Content-Type", "application/json")],
          body := some (jstringify (.jobj
            [("error".data, .jstr "Validation failed".data),
             ("details".data, .jarr (issues.map issueToJ))])) }
      | .error (.syntaxErr m) =>
        { status := 500, headers := [("Content-Type", "application/json")],
          body := some (jstringify (.jobj [("error".data, .jstr m.data)])) }
      | .error (.genericErr m) =>
        { status := 500, headers := [("Content-Type", "application/json")],
          body := some (jstringify (.jobj [("error".data, .jstr m.data)])) }
    (.ok resp,
     { r.2 with
        contextStorage := r.2.contextStorage.filter (fun q => q.1 ≠ contextKey),
        currentContextKey := none })

/-! ## Selective SSR: per-route configuration and dispatch (ssr.ts and the
page-route tail of the `Bun.serve` fetch handler in index.tsx) -/

/-- `SSRMode`: `true` (full SSR), `false` (client-only) or `'data-only'`. -/
inductive SSRMode where
  | strue : SSRMode
  | sfalse : SSRMode
  | dataOnly : SSRMode
deriving DecidableEq

/-- `RouteSSRConfig` (both fields optional). -/
structure RouteSSRConfig where
  ssr? : Option SSRMode := none
  deferredTimeout? : Option Nat := none
deriving DecidableEq

/-- The `routeSSRConfig` map: insertion-ordered path-pattern/config pairs
(JavaScript `Map` iteration order). -/
abbrev SSRConfigMap := List (String × RouteSSRConfig)

/-- `routeSSRConfig.get(path)` / `has(path)` (exact key lookup). -/
def lookupSSR : SSRConfigMap → String → Option RouteSSRConfig
  | [], _ => none
  | (p, c) :: rest, path => if p = path then some c else lookupSSR rest path

/-- `setRouteSSRConfig(path, config)`: `Map.set` — replace in place when the
key exists, else append. -/
def setRouteSSRConfig : SSRConfigMap → String → RouteSSRConfig → SSRConfigMap
  | [], path, c => [(path, c)]
  | (p, c0) :: rest, path, c =>
    if p = path then (path, c) :: rest else (p, c0) :: setRouteSSRConfig rest path c

/-- One token of the regex compiled from a route pattern: a literal
character, or the `[^/]+` wildcard substituted for a `:param` segment. -/
inductive Tok where
  | lit (c : Char) : Tok
  | seg : Tok
deriving DecidableEq

/-- Compile a route pattern as
`new RegExp('^' + pattern.replace(/:[^/]+/g, '[^/]+') + '$')` does: each
maximal run `:x...` of a colon followed by one or more non-slash characters
becomes one `seg` token, every other character a literal.  (Literal pattern
characters are taken verbatim; the repository's patterns contain no regex
metacharacters.)  The Boolean flag says whether we are inside such a run and
still skipping its remaining non-slash characters. -/
def compAux : Bool → List Char → List Tok
  | _, [] => []
  | true, c :: rest =>
    if c = '/' then .lit '/' :: compAux false rest else compAux true rest
  | false, c :: rest =>
    if c = ':' then
      match rest with
      | [] => [.lit ':']
      | d :: _ => if d = '/' then .lit ':' :: compAux false rest
                  else .seg :: compAux true rest
    else .lit c :: compAux false rest

/-- Token list of a pattern's compiled regex. -/
def compilePattern (pattern : List Char) : List Tok := compAux false pattern

/-- Fuelled full-match test of a token list against a string: complete regex
semantics (with backtracking) for the `lit`/`seg` token language.  Every
recursive call shrinks `toks.length + input.length`, so the fuel in
`matchToks` below is always sufficient. -/
def matchToksGo : Nat → List Tok → List Char → Bool
  | 0, _, _ => false
  | _ + 1, [], [] => true
  | _ + 1, [], _ :: _ => false
  | _ + 1, _ :: _, [] => false
  | f + 1, .lit c :: ts, x :: xs => c = x && matchToksGo f ts xs
  | f + 1, .seg :: ts, x :: xs =>
    x ≠ '/' && (matchToksGo f ts xs || matchToksGo f (.seg :: ts) xs)

/-- Anchored (`^...$`) match of a compiled pattern against a path. -/
def matchToks (ts : List Tok) (cs : List Char) : Bool :=
  matchToksGo (ts.length + cs.length + 1) ts cs

/-- `regex.test(path)` for the regex derived from `pattern`. -/
def patternTest (pattern path : String) : Bool :=
  matchToks (compilePattern pattern.data) path.data

/-- The templated-pattern loop of `getRouteSSRConfig`: first entry, in
insertion order, whose pattern contains `':'` and whose derived regex
matches the path. -/
def findTemplated (path : String) : SSRConfigMap → Option RouteSSRConfig
  | [] => none
  | (pat, c) :: rest =>
    if pat.data.contains ':' && patternTest pat path then some c
    else findTemplated path rest

/-- `getRouteSSRConfig(path)`: exact match, else first matching templated
pattern, else the default `\x7b ssr: true \x7d`. -/
def getRouteSSRConfig (m : SSRConfigMap) (path : String) : RouteSSRConfig :=
  match lookupSSR m path with
  | some c => c
  | none =>
    match findTemplated path m with
    | some c => c
    | none => { ssr? := some .strue }

/-- `shouldSSR(path)`: `config.ssr !== false`. -/
def shouldSSR (m : SSRConfigMap) (path : String) : Bool :=
  (getRouteSSRConfig m path).ssr? ≠ some .sfalse

/-- `isDataOnlySSR(path)`: `config.ssr === 'data-only'`. -/
def isDataOnlySSR (m : SSRConfigMap) (path : String) : Bool :=
  (getRouteSSRConfig m path).ssr? = some .dataOnly

/-- The client-only shell text before the interpolated URL. -/
def clientShellPre : String :=
  "<!DOCTYPE html>\n<html lang=\"en\">\n<head>\n  <meta charset=\"UTF-8\">\n  <meta name=\"viewport\" content=\"width=device-width, initial-scale=1.0\">\n  <title>Loading...</title>\n  <style>\n    * \x7b box-sizing: border-box; margin: 0; padding: 0; \x7d\n    body \x7b font-family: system-ui, -apple-system, sans-serif; background: #0a0a0a; color: #fafafa; \x7d\n    .loading \x7b display: flex; justify-content: center; align-items: center; height: 100vh; \x7d\n    .spinner \x7b width: 40px; height: 40px; border: 3px solid #333; border-top-color: #60a5fa; border-radius: 50%; animation: spin 1s linear infinite; \x7d\n    @keyframes spin \x7b to \x7b transform: rotate(360deg); \x7d \x7d\n  </style>\n</head>\n<body>\n  <div id=\"root\"><div class=\"loading\"><div class=\"spinner\"></div></div></div>\n  <script>window.__INITIAL_URL__ = \""

/-- The client-only shell text after the interpolated URL. -/
def clientShellPost : String :=
  "\";</script>\n  <script type=\"module\" src=\"/client.js\"></script>\n</body>\n</html>"

/-- `createClientOnlyShell(url)`: the static shell whose only interpolation
is the requested URL, assigned to `window.__INITIAL_URL__`. -/
def createClientOnlyShell (url : String) : String :=
  clientShellPre ++ url ++ clientShellPost

/-- `.replace(/</g, '\\u003c')` on the serialized bootstrap JSON. -/
def escLt : List Char → List Char
  | [] => []
  | c :: rest =>
    if c = '<' then '\\' :: 'u' :: '0' :: '0' :: '3' :: 'c' :: escLt rest
    else c :: escLt rest

/-- The data-only shell text before the interpolated URL. -/
def dataShellPre : String :=
  "<!DOCTYPE html>\n<html lang=\"en\">\n<head>\n  <meta charset=\"UTF-8\">\n  <meta name=\"viewport\" content=\"width=device-width, initial-scale=1.0\">\n  <title>Loading...</title>\n  <style>\n    * \x7b box-sizing: border-box; margin: 0; padding: 0; \x7d\n    body \x7b font-family: system-ui, -apple-system, sans-serif; background: #0a0a0a; color: #fafafa; \x7d\n    .loading \x7b display: flex; justify-content: center; align-items: center; height: 100vh; \x7d\n    .spinner \x7b width: 40px; height: 40px; border: 3px solid #333; border-top-color: #60a5fa; border-radius: 50%; animation: spin 1s linear infinite; \x7d\n    @keyframes spin \x7b to \x7b transform: rotate(360deg); \x7d \x7d\n  </style>\n</head>\n<body>\n  <div id=\"root\"><div class=\"loading\"><div class=\"spinner\"></div></div></div>\n  <script>\n    window.__INITIAL_URL__ = \""

/-- The data-only shell text between the URL and the bootstrap data. -/
def dataShellMid : String :=
  "\";\n    window.__PREFETCHED_DATA__ = "

/-- The data-only shell text after the bootstrap data. -/
def dataShellPost : String :=
  ";\n  </script>\n  <script type=\"module\" src=\"/client.js\"></script>\n</body>\n</html>"

/-- `createDataOnlyShell(url, prefetchedData)`. -/
def createDataOnlyShell (url : String) (prefetchedData : JValue) : String :=
  dataShellPre ++ url ++ dataShellMid
    ++ (⟨escLt (jstringify prefetchedData).data⟩ : String) ++ dataShellPost

/-- The 500 error page of the full-SSR catch branch (development rendering
of the thrown error). -/
def ssrErrorPage (e : String) : String :=
  "<!DOCTYPE html><html><head><title>Error</title></head><body><h1>500 - Server Error</h1><pre>"
    ++ e ++ "</pre></body></html>"

/-- What the page-route part of the fetch handler returns to the transport.
`renderInvoked` is a ghost flag recording whether the application's render
routine (`renderApp`) was called for this request. -/
structure PageResponse where
  status : Nat
  headers : HeaderList
  body : String
  renderInvoked : Bool
deriving DecidableEq

/-- The selective-SSR tail of the `Bun.serve` fetch handler (after the
`/client.js`, `/health`, `/_server-fn` and `/api/` branches): choose the
rendering strategy from the route's SSR config.  `render` abstracts
`renderApp` (the markup phase); `timestamp` abstracts the clock read
(`new Date().toISOString()`) in the data-only branch, whose prefetched
record the source fills with that timestamp and the route path. -/
def serveSSR (cfgs : SSRConfigMap) (render : String → Except String String)
    (timestamp : String) (pathname search : String) : PageResponse :=
  let fullUrl := pathname ++ search
  if shouldSSR cfgs pathname = false then
    { status := 200, headers := [("Content-Type", "text/html; charset=utf-8")],
      body := createClientOnlyShell fullUrl, renderInvoked := false }
  else if isDataOnlySSR cfgs pathname then
    let prefetchedData : JValue := .jobj
      [("serverTimestamp".data, .jstr timestamp.data),
       ("routePath".data, .jstr pathname.data)]
    { status := 200, headers := [("Content-Type", "text/html; charset=utf-8")],
      body := createDataOnlyShell fullUrl prefetchedData, renderInvoked := false }
  else
    match render fullUrl with
    | .ok html =>
      { status := 200,
        headers := [("Content-Type", "text/html; charset=utf-8"),
                    ("Transfer-Encoding", "chunked")],
        body := html, renderInvoked := true }
    | .error e =>
      { status := 500, headers := [("Content-Type", "text/html; charset=utf-8")],
        body := ssrErrorPage e, renderInvoked := true }

/-! ## Test fixtures: instrumented middlewares/handlers and concrete
registries and requests used to state and witness the claims -/

/-- Store well-formedness: every allocated context key is below the symbol
allocator.  Holds for `initStore` and is preserved by every operation. -/
def wfStore (s : Store) : Prop := ∀ p ∈ s.contextStorage, p.1 < s.nextKey

/-- A test middleware that records its position `i` in the ghost trace and
then returns or throws as `out` says. -/
def instrMw (i : Nat) (out : Except JErr JValue) : Mw :=
  fun _ _ s => (out, { s with events := s.events ++ [.mwCalled i] })

/-- A test handler that records its invocation in the ghost trace. -/
def instrHandler (ret : JValue) : Handler :=
  fun _ _ s => (.ok ret, { s with events := s.events ++ [.handlerCalled] })

/-- `okMws i [v0, v1, ...]`: succeeding instrumented middlewares numbered
`i, i+1, ...` returning the given values. -/
def okMws : Nat → List JValue → List Mw
  | _, [] => []
  | i, v :: vs => instrMw i (.ok v) :: okMws (i + 1) vs

/-- A handler that echoes its (validated) input back. -/
def echoHandler : Handler := fun input _ s => (.ok (input.getD .jnull), s)

/-- Registry with `N = vals.length` instrumented succeeding middlewares and
an instrumented handler, registered as `"f"`. -/
def mwReg (vals : List JValue) (ret : JValue) : Registry :=
  [("f", { name := "f", middlewares := okMws 0 vals,
           handler? := some (instrHandler ret) })]

/-- Registry whose middleware list is `vals.length` succeeding instrumented
middlewares, then one that throws `e`, then arbitrary further middlewares. -/
def mwBreakReg (vals : List JValue) (e : JErr) (tailMws : List Mw) (ret : JValue) :
    Registry :=
  [("f", { name := "f",
           middlewares := okMws 0 vals ++ instrMw vals.length (.error e) :: tailMws,
           handler? := some (instrHandler ret) })]

/-- A handler that calls `setResponseHeader("X-Test", "yes")` and
`setResponseStatus(201)` and returns `"ok"` — the shape of handler the
spec's success contract is about. -/
def setHeaderHandler : Handler := fun _ _ s =>
  let p1 := setResponseHeader "X-Test" "yes" s
  let p2 := setResponseStatus 201 p1.2
  (.ok (.jstr "ok".data), p2.2)

/-- Registry with the header-setting handler registered as `"f"`. -/
def setHeaderReg : Registry := [("f", { name := "f", handler? := some setHeaderHandler })]

/-- Registry with `echoHandler` registered as `"f"` and no validator. -/
def echoReg : Registry := [("f", { name := "f", handler? := some echoHandler })]

/-- Registry with a validator and the echo handler under `"f"`. -/
def valReg (v : Validator) : Registry :=
  [("f", { name := "f", validator? := some v, handler? := some echoHandler })]

/-- Registry whose handler throws `redirect(url, 303)`. -/
def redirHandlerReg (url : String) : Registry :=
  [("go", { name := "go",
            handler? := some (fun _ _ s => (.error (.redirectErr url 303), s)) })]

/-- Registry whose (single) middleware throws `redirect(url, 303)`. -/
def redirMwReg (url : String) : Registry :=
  [("go", { name := "go",
            middlewares := [fun _ _ s => (.error (.redirectErr url 303), s)],
            handler? := some echoHandler })]

/-- A JSON POST request to `/_server-fn/<name>` with the given body. -/
def postReq (name : String) (body : String) : Request :=
  { method := "POST", pathname := "/_server-fn/" ++ name,
    headers := [("content-type", "application/json")], body := body }

/-- The echo validator of the spec's example: input must be an object whose
`message` field is a string of 1..1000 characters. -/
def echoValidator : Validator := fun input =>
  match input with
  | some (.jobj [(k, .jstr m)]) =>
    if k = "message".data ∧ 1 ≤ m.length ∧ m.length ≤ 1000 then .ok input
    else .error (.zodErr [(["message".data], "String must contain at least 1 character(s)".data)])
  | _ => .error (.zodErr [(["message".data], "Required".data)])

/-- Request used for the concurrency scenario, call A. -/
def reqA : Request := { method := "POST", pathname := "/_server-fn/a" }

/-- Request used for the concurrency scenario, call B. -/
def reqB : Request := { method := "POST", pathname := "/_server-fn/b" }

/-- A handler that calls `getRequestContext()` and reports which request the
context it observed belongs to. -/
def observeHandler : Handler := fun _ _ s =>
  match getRequestContext s with
  | .ok ctx => (.ok (.jstr ctx.request.pathname.data), s)
  | .error e => (.error e, s)

/-- Call A's registered function for the interleaving scenario: its single
middleware's await point is where the event loop runs call B's synchronous
context-setup prefix (`setupCtx` is exactly that prefix, and B's registry
lookup before it does not touch the store), after which A's handler resumes
and observes the current context. -/
def interleaveReg : Registry :=
  [("a", { name := "a",
           middlewares := [fun _ d s => (.ok d, (setupCtx [] reqB s).2)],
           handler? := some observeHandler })]

/-- SSR config map registering `/admin` as client-only. -/
def adminCfgs : SSRConfigMap :=
  setRouteSSRConfig [] "/admin" { ssr? := some .sfalse }

/-- SSR config map with an exact entry and a templated entry. -/
def demoCfgs : SSRConfigMap :=
  setRouteSSRConfig
    (setRouteSSRConfig [] "/admin" { ssr? := some .sfalse })
    "/posts/:id" { ssr? := some .dataOnly }

/-- A remainder that cannot extend a rendered number: empty or headed by a
non-digit.  Every delimiter the serializer can emit after a value (`,`, `]`,
the closing brace, end of input) qualifies. -/
def numDelim : List Char → Bool
  | [] => true
  | c :: _ => !(isDigit c)

/-! ## Round-trip of the JSON codec

`jparse (jstringify v) = .ok v` for every modelled value.  The lemmas below
invert each grammar production; the structural cases are one mutual
induction at the end. -/

theorem natDigitsGo_fuel :
    ∀ n f g, n < f → n < g → natDigitsGo f n = natDigitsGo g n := by
  intro n
  induction n using Nat.strong_induction_on with
  | _ n ih =>
    intro f g hf hg
    cases f with
    | zero => omega
    | succ f =>
      cases g with
      | zero => omega
      | succ g =>
        simp only [natDigitsGo]
        by_cases h : n < 10
        · simp [h]
        · simp only [if_neg h]
          have hd : n / 10 < n := Nat.div_lt_self (by omega) (by omega)
          rw [ih (n / 10) hd f g (by omega) (by omega)]

theorem natDigits_unfold (n : Nat) :
    natDigits n = if n < 10 then [Char.ofNat (48 + n)]
                  else natDigits (n / 10) ++ [Char.ofNat (48 + n % 10)] := by
  have h0 : natDigits n
      = if n < 10 then [Char.ofNat (48 + n)]
        else natDigitsGo n (n / 10) ++ [Char.ofNat (48 + n % 10)] := rfl
  rw [h0]
  by_cases h : n < 10
  · simp [h]
  · have hd : n / 10 < n := Nat.div_lt_self (by omega) (by omega)
    simp only [if_neg h]
    rw [natDigitsGo_fuel (n / 10) n (n / 10 + 1) (by omega) (by omega)]
    rfl

theorem digitChar_toNat (m : Nat) (h : m < 10) :
    (Char.ofNat (48 + m)).toNat = 48 + m := by
  interval_cases m <;> decide

theorem isDigit_digitChar (m : Nat) (h : m < 10) :
    isDigit (Char.ofNat (48 + m)) = true := by
  interval_cases m <;> decide

theorem natDigits_ne_nil (n : Nat) : natDigits n ≠ [] := by
  rw [natDigits_unfold]
  by_cases h : n < 10 <;> simp [h]

theorem natDigits_all_digits (n : Nat) : ∀ c ∈ natDigits n, isDigit c = true := by
  induction n using Nat.strong_induction_on with
  | _ n ih =>
    rw [natDigits_unfold]
    by_cases h : n < 10
    · simp only [if_pos h, List.mem_singleton]
      intro c hc
      subst hc
      exact isDigit_digitChar n h
    · simp only [if_neg h, List.mem_append, List.mem_singleton]
      intro c hc
      rcases hc with hc | hc
      · exact ih (n / 10) (Nat.div_lt_self (by omega) (by omega)) c hc
      · subst hc
        exact isDigit_digitChar (n % 10) (Nat.mod_lt _ (by omega))

theorem natDigits_head (n : Nat) :
    ∃ c t, natDigits n = c :: t ∧ isDigit c = true := by
  match h : natDigits n with
  | [] => exact absurd h (natDigits_ne_nil n)
  | c :: t =>
    refine ⟨c, t, rfl, natDigits_all_digits n c ?_⟩
    rw [h]
    exact List.mem_cons_self c t

theorem digitsVal_append (xs : List Char) (c : Char) :
    digitsVal (xs ++ [c]) = digitsVal xs * 10 + (c.toNat - 48) := by
  simp [digitsVal, List.foldl_append]

theorem digitsVal_natDigits (n : Nat) : digitsVal (natDigits n) = n := by
  induction n using Nat.strong_induction_on with
  | _ n ih =>
    rw [natDigits_unfold]
    by_cases h : n < 10
    · simp only [if_pos h]
      simp [digitsVal, digitChar_toNat n h]
    · simp only [if_neg h]
      rw [digitsVal_append, ih (n / 10) (Nat.div_lt_self (by omega) (by omega)),
          digitChar_toNat (n % 10) (Nat.mod_lt _ (by omega))]
      omega

theorem takeDigits_stop (rest : List Char) (h : numDelim rest = true) :
    takeDigits rest = ([], rest) := by
  cases rest with
  | nil => rfl
  | cons c t =>
    simp only [numDelim, Bool.not_eq_true'] at h
    simp [takeDigits, h]

theorem takeDigits_run (ds : List Char) (hds : ∀ c ∈ ds, isDigit c = true)
    (rest : List Char) (hrest : numDelim rest = true) :
    takeDigits (ds ++ rest) = (ds, rest) := by
  induction ds with
  | nil => simpa using takeDigits_stop rest hrest
  | cons c t ih =>
    have hc : isDigit c = true := hds c (List.mem_cons_self c t)
    have ht := ih (fun x hx => hds x (List.mem_cons_of_mem c hx))
    simp [takeDigits, hc, ht]

theorem hexVal_hexDigit (m : Nat) (h : m < 16) : hexVal (hexDigit m) = some m := by
  interval_cases m <;> decide

theorem parseStr_escChar (c : Char) (rest : List Char) :
    parseStr (escChar c ++ rest) = (parseStr rest).map (fun p => (c :: p.1, p.2)) := by
  by_cases h1 : c = '"'
  · subst h1; simp only [escChar, if_pos rfl, List.cons_append, List.nil_append]
    rw [parseStr.eq_def]; simp
  by_cases h2 : c = '\\'
  · subst h2
    simp only [escChar, if_neg h1, if_pos rfl, List.cons_append, List.nil_append]
    rw [parseStr.eq_def]; simp
  by_cases h3 : c = '\x08'
  · subst h3
    simp only [escChar, if_neg h1, if_neg h2, if_pos rfl, List.cons_append,
      List.nil_append]
    rw [parseStr.eq_def]; simp
  by_cases h4 : c = '\x0c'
  · subst h4
    simp only [escChar, if_neg h1, if_neg h2, if_neg h3, if_pos rfl,
      List.cons_append, List.nil_append]
    rw [parseStr.eq_def]; simp
  by_cases h5 : c = '\n'
  · subst h5
    simp only [escChar, if_neg h1, if_neg h2, if_neg h3, if_neg h4, if_pos rfl,
      List.cons_append, List.nil_append]
    rw [parseStr.eq_def]; simp
  by_cases h6 : c = '\r'
  · subst h6
    simp only [escChar, if_neg h1, if_neg h2, if_neg h3, if_neg h4, if_neg h5,
      if_pos rfl, List.cons_append, List.nil_append]
    rw [parseStr.eq_def]; simp
  by_cases h7 : c = '\t'
  · subst h7
    simp only [escChar, if_neg h1, if_neg h2, if_neg h3, if_neg h4, if_neg h5,
      if_neg h6, if_pos rfl, List.cons_append, List.nil_append]
    rw [parseStr.eq_def]; simp
  by_cases h8 : c.toNat < 32
  · have e1 : hexVal (hexDigit (c.toNat / 16)) = some (c.toNat / 16) :=
      hexVal_hexDigit _ (by omega)
    have e2 : hexVal (hexDigit (c.toNat % 16)) = some (c.toNat % 16) :=
      hexVal_hexDigit _ (Nat.mod_lt _ (by omega))
    have hz : hexVal '0' = some 0 := rfl
    simp only [escChar, if_neg h1, if_neg h2, if_neg h3, if_neg h4, if_neg h5,
      if_neg h6, if_neg h7, if_pos h8, List.cons_append, List.nil_append]
    rw [parseStr.eq_def]
    simp [hz, e1, e2]
    have hc : Char.ofNat (c.toNat / 16 * 16 + c.toNat % 16) = c := by
      have harith : c.toNat / 16 * 16 + c.toNat % 16 = c.toNat := by omega
      rw [harith, Char.ofNat_toNat]
    rw [hc]
  · simp only [escChar, if_neg h1, if_neg h2, if_neg h3, if_neg h4, if_neg h5,
      if_neg h6, if_neg h7, if_neg h8, List.cons_append, List.nil_append]
    rw [parseStr.eq_def]
    simp [h1, h2, h8]

theorem parseStr_escStr (s : List Char) (rest : List Char) :
    parseStr (escStr s ++ '"' :: rest) = some (s, rest) := by
  induction s with
  | nil =>
    show parseStr ('"' :: rest) = some ([], rest)
    rw [parseStr.eq_def]; simp
  | cons c t ih =>
    rw [escStr, List.append_assoc, parseStr_escChar, ih]
    rfl

theorem jstringifyL_ne_nil (v : JValue) : jstringifyL v ≠ [] := by
  cases v with
  | jnull => simp [jstringifyL]
  | jbool b => cases b <;> simp [jstringifyL]
  | jnum n =>
    simp only [jstringifyL, intChars]
    by_cases h : n < 0
    · simp [h]
    · simp [h, natDigits_ne_nil]
  | jstr s => simp [jstringifyL]
  | jarr es => simp [jstringifyL]
  | jobj fs => simp [jstringifyL]

theorem isDigit_excl (c : Char) (h : isDigit c = true) :
    c ≠ 'n' ∧ c ≠ 't' ∧ c ≠ 'f' ∧ c ≠ '"' ∧ c ≠ '[' ∧ c ≠ '\x7b' ∧ c ≠ '-' ∧ c ≠ ']' := by
  refine ⟨?_, ?_, ?_, ?_, ?_, ?_, ?_, ?_⟩ <;>
    (intro he; subst he; exact absurd h (by decide))

theorem jstringifyL_head (v : JValue) : ∃ c t, jstringifyL v = c :: t ∧ c ≠ ']' := by
  cases v with
  | jnull => exact ⟨'n', _, rfl, by decide⟩
  | jbool b =>
    cases b with
    | true => exact ⟨'t', _, rfl, by decide⟩
    | false => exact ⟨'f', _, rfl, by decide⟩
  | jstr s => exact ⟨'"', _, rfl, by decide⟩
  | jarr es => exact ⟨'[', _, rfl, by decide⟩
  | jobj fs => exact ⟨'\x7b', _, rfl, by decide⟩
  | jnum n =>
    simp only [jstringifyL, intChars]
    by_cases h : n < 0
    · exact ⟨'-', _, by rw [if_pos h], by decide⟩
    · obtain ⟨c, t, hct, hc⟩ := natDigits_head n.natAbs
      exact ⟨c, t, by rw [if_neg h, hct], (isDigit_excl c hc).2.2.2.2.2.2.2⟩

theorem jstringifyElems_cons (v : JValue) (vs : List JValue) :
    jstringifyElems (v :: vs)
      = jstringifyL v ++ (if vs.isEmpty then [] else ',' :: jstringifyElems vs) := by
  cases vs <;> simp [jstringifyElems]

theorem jstringifyFields_head (kv : List Char × JValue)
    (fs : List (List Char × JValue)) :
    ∃ t, jstringifyFields (kv :: fs) = '"' :: t := by
  obtain ⟨k, v⟩ := kv
  cases fs <;> exact ⟨_, rfl⟩

theorem numDelim_comma (r : List Char) : numDelim (',' :: r) = true := rfl

theorem numDelim_rsq (r : List Char) : numDelim (']' :: r) = true := rfl

theorem numDelim_rbrace (r : List Char) : numDelim ('\x7d' :: r) = true := rfl

theorem parseV_num (f : Nat) (n : Int) (rest : List Char) (hr : numDelim rest = true) :
    parseV (f + 1) (intChars n ++ rest) = some (.jnum n, rest) := by
  have htdAll := takeDigits_run (natDigits n.natAbs) (natDigits_all_digits _) rest hr
  obtain ⟨c, t, hct, hc⟩ := natDigits_head n.natAbs
  obtain ⟨e1, e2, e3, e4, e5, e6, e7, e8⟩ := isDigit_excl c hc
  by_cases h : n < 0
  · rw [intChars, if_pos h, List.cons_append, parseV.eq_def]
    simp only [Char.isValue, reduceIte]
    simp
    rw [parseNeg.eq_def, htdAll, hct]
    have hdv : digitsVal (c :: t) = n.natAbs := by rw [← hct, digitsVal_natDigits]
    have habs : ((n.natAbs : Int)) = -n := Int.ofNat_natAbs_of_nonpos (by omega)
    simp [hdv, habs]
  · rw [intChars, if_neg h, hct, List.cons_append, parseV.eq_def]
    rw [hct] at htdAll
    simp only [List.cons_append] at htdAll
    simp [e1, e2, e3, e4, e5, e6, e7, hc, htdAll]
    rw [← hct, digitsVal_natDigits]
    exact Int.natAbs_of_nonneg (by omega)

theorem parseV_arr_cons (f : Nat) (v : JValue) (vs : List JValue) (tail : List Char) :
    parseV (f + 1) ('[' :: (jstringifyElems (v :: vs) ++ ']' :: tail))
      = (parseElems f (jstringifyElems (v :: vs) ++ ']' :: tail)).map
          (fun p => (.jarr p.1, p.2)) := by
  obtain ⟨c, t, hct, hc⟩ := jstringifyL_head v
  have hshape : jstringifyElems (v :: vs) ++ ']' :: tail
      = c :: (t ++ (if vs.isEmpty then [] else ',' :: jstringifyElems vs) ++ ']' :: tail) := by
    rw [jstringifyElems_cons, hct]; simp
  rw [parseV.eq_def, hshape]
  simp [hc]

theorem parseV_obj_cons (f : Nat) (kv : List Char × JValue)
    (fs : List (List Char × JValue)) (tail : List Char) :
    parseV (f + 1) ('\x7b' :: (jstringifyFields (kv :: fs) ++ '\x7d' :: tail))
      = (parseFields f (jstringifyFields (kv :: fs) ++ '\x7d' :: tail)).map
          (fun p => (.jobj p.1, p.2)) := by
  obtain ⟨t, ht⟩ := jstringifyFields_head kv fs
  rw [parseV.eq_def, ht]
  simp

mutual

/-- The parser inverts the serializer on every value, for any fuel above the
output length and any remainder that cannot extend a number. -/
theorem rtV : ∀ (v : JValue) (f : Nat) (rest : List Char),
    (jstringifyL v).length < f → numDelim rest = true →
    parseV f (jstringifyL v ++ rest) = some (v, rest)
  | .jnull, f, rest, hf, _ => by
    cases f with
    | zero => exact absurd hf (Nat.not_lt_zero _)
    | succ f =>
      show parseV (f + 1) ('n' :: 'u' :: 'l' :: 'l' :: rest) = some (.jnull, rest)
      rw [parseV.eq_def]
      simp [expectNull]
  | .jbool true, f, rest, hf, _ => by
    cases f with
    | zero => exact absurd hf (Nat.not_lt_zero _)
    | succ f =>
      show parseV (f + 1) ('t' :: 'r' :: 'u' :: 'e' :: rest) = some (.jbool true, rest)
      rw [parseV.eq_def]
      simp [expectTrue]
  | .jbool false, f, rest, hf, _ => by
    cases f with
    | zero => exact absurd hf (Nat.not_lt_zero _)
    | succ f =>
      show parseV (f + 1) ('f' :: 'a' :: 'l' :: 's' :: 'e' :: rest)
          = some (.jbool false, rest)
      rw [parseV.eq_def]
      simp [expectFalse]
  | .jnum n, f, rest, hf, hr => by
    cases f with
    | zero => exact absurd hf (Nat.not_lt_zero _)
    | succ f =>
      rw [show jstringifyL (.jnum n) = intChars n from by simp [jstringifyL]]
      exact parseV_num f n rest hr
  | .jstr s, f, rest, hf, _ => by
    cases f with
    | zero => exact absurd hf (Nat.not_lt_zero _)
    | succ f =>
      have hshape : jstringifyL (.jstr s) ++ rest = '"' :: (escStr s ++ '"' :: rest) := by
        simp [jstringifyL]
      rw [hshape, parseV.eq_def]
      simp [parseStr_escStr]
  | .jarr [], f, rest, hf, _ => by
    cases f with
    | zero => exact absurd hf (Nat.not_lt_zero _)
    | succ f =>
      have hshape : jstringifyL (.jarr []) ++ rest = '[' :: ']' :: rest := by
        simp [jstringifyL, jstringifyElems]
      rw [hshape, parseV.eq_def]
      simp
  | .jarr (v :: vs), f, rest, hf, _ => by
    cases f with
    | zero => exact absurd hf (Nat.not_lt_zero _)
    | succ f =>
      have hshape : jstringifyL (.jarr (v :: vs)) ++ rest
          = '[' :: (jstringifyElems (v :: vs) ++ ']' :: rest) := by
        simp [jstringifyL]
      have hlen : (jstringifyElems (v :: vs)).length + 1 < f := by
        have h2 : (jstringifyL (.jarr (v :: vs))).length
            = (jstringifyElems (v :: vs)).length + 2 := by
          simp [jstringifyL]
        omega
      rw [hshape, parseV_arr_cons, rtElems v vs f rest hlen]
      rfl
  | .jobj [], f, rest, hf, _ => by
    cases f with
    | zero => exact absurd hf (Nat.not_lt_zero _)
    | succ f =>
      have hshape : jstringifyL (.jobj []) ++ rest = '\x7b' :: '\x7d' :: rest := by
        simp [jstringifyL, jstringifyFields]
      rw [hshape, parseV.eq_def]
      simp
  | .jobj (kv :: fs), f, rest, hf, _ => by
    cases f with
    | zero => exact absurd hf (Nat.not_lt_zero _)
    | succ f =>
      have hshape : jstringifyL (.jobj (kv :: fs)) ++ rest
          = '\x7b' :: (jstringifyFields (kv :: fs) ++ '\x7d' :: rest) := by
        simp [jstringifyL]
      have hlen : (jstringifyFields (kv :: fs)).length + 1 < f := by
        have h2 : (jstringifyL (.jobj (kv :: fs))).length
            = (jstringifyFields (kv :: fs)).length + 2 := by
          simp [jstringifyL]
        omega
      rw [hshape, parseV_obj_cons, rtFields kv fs f rest hlen]
      rfl

/-- The element parser inverts the element serializer on nonempty lists. -/
theorem rtElems : ∀ (v : JValue) (vs : List JValue) (f : Nat) (rest : List Char),
    (jstringifyElems (v :: vs)).length + 1 < f →
    parseElems f (jstringifyElems (v :: vs) ++ ']' :: rest) = some (v :: vs, rest)
  | v, [], f, rest, hf => by
    cases f with
    | zero => omega
    | succ f =>
      have h1 : jstringifyElems [v] = jstringifyL v := by simp [jstringifyElems]
      have hlenv : (jstringifyL v).length < f := by rw [h1] at hf; omega
      have hv := rtV v f (']' :: rest) hlenv (numDelim_rsq rest)
      rw [h1, parseElems.eq_def]
      simp [hv]
  | v, w :: ws, f, rest, hf => by
    cases f with
    | zero => omega
    | succ f =>
      have h1 : jstringifyElems (v :: w :: ws)
          = jstringifyL v ++ ',' :: jstringifyElems (w :: ws) := by
        simp [jstringifyElems]
      have hne : (jstringifyL v).length ≠ 0 := by
        simpa [List.length_eq_zero] using jstringifyL_ne_nil v
      have hlens : (jstringifyElems (v :: w :: ws)).length
          = (jstringifyL v).length + 1 + (jstringifyElems (w :: ws)).length := by
        simp [h1]
        omega
      have hlenv : (jstringifyL v).length < f := by omega
      have hlenw : (jstringifyElems (w :: ws)).length + 1 < f := by omega
      have hv := rtV v f (',' :: (jstringifyElems (w :: ws) ++ ']' :: rest)) hlenv
        (numDelim_comma _)
      have hrec := rtElems w ws f rest hlenw
      have hshape : jstringifyElems (v :: w :: ws) ++ ']' :: rest
          = jstringifyL v ++ ',' :: (jstringifyElems (w :: ws) ++ ']' :: rest) := by
        rw [h1]; simp
      rw [hshape, parseElems.eq_def]
      simp [hv, hrec]

/-- The field parser inverts the field serializer on nonempty lists. -/
theorem rtFields : ∀ (kv : List Char × JValue) (fs : List (List Char × JValue))
    (f : Nat) (rest : List Char),
    (jstringifyFields (kv :: fs)).length + 1 < f →
    parseFields f (jstringifyFields (kv :: fs) ++ '\x7d' :: rest)
      = some (kv :: fs, rest)
  | (k, v), [], f, rest, hf => by
    cases f with
    | zero => omega
    | succ f =>
      have h1 : jstringifyFields [(k, v)]
          = '"' :: (escStr k ++ ['"']) ++ ':' :: jstringifyL v := by
        simp [jstringifyFields]
      have hlens : (jstringifyFields [(k, v)]).length
          = (escStr k).length + 3 + (jstringifyL v).length := by
        simp [h1]
        omega
      have hlenv : (jstringifyL v).length < f := by omega
      have hv := rtV v f ('\x7d' :: rest) hlenv (numDelim_rbrace rest)
      have hshape : jstringifyFields [(k, v)] ++ '\x7d' :: rest
          = '"' :: (escStr k ++ '"' :: (':' :: (jstringifyL v ++ '\x7d' :: rest))) := by
        rw [h1]; simp
      rw [hshape, parseFields.eq_def]
      simp [parseStr_escStr, hv]
  | (k, v), g :: gs, f, rest, hf => by
    cases f with
    | zero => omega
    | succ f =>
      have h1 : jstringifyFields ((k, v) :: g :: gs)
          = '"' :: (escStr k ++ ['"']) ++ ':' :: jstringifyL v
            ++ ',' :: jstringifyFields (g :: gs) := by
        simp [jstringifyFields]
      have hlens : (jstringifyFields ((k, v) :: g :: gs)).length
          = (escStr k).length + 3 + (jstringifyL v).length + 1
            + (jstringifyFields (g :: gs)).length := by
        simp [h1]
        omega
      have hlenv : (jstringifyL v).length < f := by omega
      have hleng : (jstringifyFields (g :: gs)).length + 1 < f := by omega
      have hv := rtV v f (',' :: (jstringifyFields (g :: gs) ++ '\x7d' :: rest)) hlenv
        (numDelim_comma _)
      have hrec := rtFields g gs f rest hleng
      have hshape : jstringifyFields ((k, v) :: g :: gs) ++ '\x7d' :: rest
          = '"' :: (escStr k ++ '"' :: (':' :: (jstringifyL v
              ++ ',' :: (jstringifyFields (g :: gs) ++ '\x7d' :: rest)))) := by
        rw [h1]; simp
      rw [hshape, parseFields.eq_def]
      simp [parseStr_escStr, hv, hrec]

end

/-- `JSON.parse` inverts `JSON.stringify` on every modelled value. -/
theorem jparse_jstringify (v : JValue) : jparse (jstringify v) = .ok v := by
  have hdata : (jstringify v).data = jstringifyL v := rfl
  have h := rtV v ((jstringifyL v).length + 1) [] (by omega) rfl
  rw [List.append_nil] at h
  rw [jparse, hdata, h]

/-- Serializer output is never the empty string. -/
theorem jstringify_ne_empty (v : JValue) : jstringify v ≠ "" := by
  intro h
  exact jstringifyL_ne_nil v (congrArg String.data h)

/-- The request-decoding phase on a JSON POST to `/_server-fn/f` whose body
is a serialized value yields that value as the input. -/
theorem parseRequestPhase_postF (v : JValue) :
    parseRequestPhase (postReq "f" (jstringify v)) = .ok ("f", some v) := by
  have hparts :
      ((splitChar '/' ("/_server-fn/" ++ "f" : String).data).map
        (fun l => (⟨l⟩ : String))).filter (fun p => p ≠ "")
      = ["_server-fn", "f"] := by decide
  have hform1 : containsSub "multipart/form-data" "application/json" = false := by decide
  have hform2 :
      containsSub "application/x-www-form-urlencoded" "application/json" = false := by
    decide
  simp only [parseRequestPhase, postReq, hget, hparts, hform1, hform2]
  simp [hform1, hform2, jstringify_ne_empty v, jparse_jstringify v]
  rfl

/-! ## Context-store lemmas -/

theorem lookupCtx_filter_key (l : List (Nat × ServerFnContext)) (k : Nat)
    (q : Nat × ServerFnContext → Bool) (hq : ∀ p, p.1 = k → q p = false) :
    lookupCtx (l.filter q) k = none := by
  induction l with
  | nil => rfl
  | cons p rest ih =>
    by_cases h : p.1 = k
    · simp [List.filter_cons, hq p h, ih]
    · by_cases hqp : q p
      · simp [List.filter_cons, hqp, lookupCtx, h, ih]
      · simp [List.filter_cons, hqp, ih]

theorem lookupCtx_filter_none (l : List (Nat × ServerFnContext)) (k : Nat)
    (q : Nat × ServerFnContext → Bool) (h : lookupCtx l k = none) :
    lookupCtx (l.filter q) k = none := by
  induction l with
  | nil => rfl
  | cons p rest ih =>
    rw [lookupCtx] at h
    by_cases hk : p.1 = k
    · simp [hk] at h
    · rw [if_neg hk] at h
      by_cases hq : q p
      · simp [List.filter_cons, hq, lookupCtx, hk, ih h]
      · simp [List.filter_cons, hq, ih h]

theorem lookupCtx_none_of_lt (l : List (Nat × ServerFnContext)) (m k : Nat)
    (hall : ∀ p ∈ l, p.1 < m) (hk : m ≤ k) : lookupCtx l k = none := by
  induction l with
  | nil => rfl
  | cons p rest ih =>
    have hp := hall p (List.mem_cons_self p rest)
    rw [lookupCtx, if_neg (by omega)]
    exact ih (fun q hq => hall q (List.mem_cons_of_mem p hq))

/-- C3: on every exit path of `executeServerFn` and of `handleServerFn` the
context entry registered for that call (key `s.nextKey` for the function's
own context, key `s.nextKey + 1` for the inner context that `handleServerFn`'s
call to `executeServerFn` registers) is gone from the store when the call
returns or rethrows. -/
theorem C3_guaranteed_context_cleanup :
    (∀ (reg : Registry) (name : String) (input : Option JValue) (req : Request)
        (s : Store), wfStore s →
      lookupCtx ((executeServerFn reg name input req s).2).contextStorage s.nextKey
        = none)
    ∧ ∀ (reg : Registry) (req : Request) (s : Store), wfStore s →
      lookupCtx ((handleServerFn reg req s).2).contextStorage s.nextKey = none
      ∧ lookupCtx ((handleServerFn reg req s).2).contextStorage (s.nextKey + 1)
        = none := by
  constructor
  · intro reg name input req s hwf
    cases hc : findCfg reg name with
    | none =>
      simp [executeServerFn, hc]
      exact lookupCtx_none_of_lt _ s.nextKey s.nextKey hwf le_rfl
    | some cfg =>
      simp [executeServerFn, hc, exCleanup, setupCtx]
      exact lookupCtx_filter_key _ _ _ (fun p hp => by simp [hp])
  · intro reg req s hwf
    cases hp : parseRequestPhase req with
    | error e =>
      refine ⟨?_, ?_⟩ <;> simp [handleServerFn, hp]
      · exact lookupCtx_none_of_lt _ s.nextKey _ hwf le_rfl
      · exact lookupCtx_none_of_lt _ s.nextKey _ hwf (by omega)
    | ok ni =>
      obtain ⟨name, input⟩ := ni
      constructor
      · simp [handleServerFn, hp]
        exact lookupCtx_filter_key _ _ _ (fun p hp => by simp [setupCtx, hp])
      · simp only [handleServerFn, hp]
        apply lookupCtx_filter_none
        cases hc : findCfg reg name with
        | none =>
          simp [executeServerFn, hc, setupCtx]
          rw [lookupCtx, if_neg (by omega)]
          exact lookupCtx_none_of_lt _ s.nextKey _ hwf (by omega)
        | some cfg =>
          simp [executeServerFn, hc, exCleanup, setupCtx]
          exact lookupCtx_filter_key _ _ _ (fun p hp => by simp [hp])

/-- Witness for C3 at a concrete registry, request and the initial store. -/
theorem C3_guaranteed_context_cleanup_witness :
    lookupCtx ((executeServerFn echoReg "f" none (postReq "f" "null")
        initStore).2).contextStorage 0 = none
    ∧ lookupCtx ((handleServerFn echoReg (postReq "f" "null")
        initStore).2).contextStorage 0 = none
    ∧ lookupCtx ((handleServerFn echoReg (postReq "f" "null")
        initStore).2).contextStorage 1 = none := by
  have hwf : wfStore initStore := by
    intro p hp
    simp [initStore] at hp
  exact ⟨C3_guaranteed_context_cleanup.1 echoReg "f" none (postReq "f" "null")
      initStore hwf,
    (C3_guaranteed_context_cleanup.2 echoReg (postReq "f" "null") initStore hwf).1,
    (C3_guaranteed_context_cleanup.2 echoReg (postReq "f" "null") initStore hwf).2⟩

/-- C2 counterexample: in the event-loop interleaving where call A runs the
synchronous context-setup prefix of `executeServerFn`, suspends at its first
await, call B then runs its own setup prefix, and call A resumes, A's
`getRequestContext()` returns B's context (the single global
`currentContextKey` now points at B); and A's `setResponseHeader("X-A","a")`
lands in B's stored context while A's own stays untouched.  The last
conjunct replays the same schedule through a full `executeServerFn` run of
call A: A's handler, resumed after B began during the middleware's await,
observes the context of request `/_server-fn/b`, not its own
`/_server-fn/a`. -/
theorem C2_interleaving_counterexample :
    (∃ ctx, getRequestContext (setupCtx [] reqB (setupCtx [] reqA initStore).2).2
        = .ok ctx ∧ ctx.request = reqB ∧ ctx.request ≠ reqA)
    ∧ lookupCtx ((setResponseHeader "X-A" "a"
        (setupCtx [] reqB (setupCtx [] reqA initStore).2).2).2).contextStorage 1
      = some { request := reqB, headers := [], responseHeaders := [("X-A", "a")],
               responseStatus := 200 }
    ∧ lookupCtx ((setResponseHeader "X-A" "a"
        (setupCtx [] reqB (setupCtx [] reqA initStore).2).2).2).contextStorage 0
      = some { request := reqA, headers := [], responseHeaders := [],
               responseStatus := 200 }
    ∧ (executeServerFn interleaveReg "a" none reqA initStore).1
        = .ok (.jstr "/_server-fn/b".data)
    ∧ reqA.pathname ≠ "/_server-fn/b" := by
  refine ⟨⟨_, rfl, rfl, ?_⟩, rfl, rfl, rfl, by decide⟩
  intro h
  exact absurd (congrArg Request.pathname h) (by decide)

/-- C2 amended: each invocation's context is registered under its own fresh
store key, and another call's setup neither overwrites nor removes it; and as
long as no other invocation has begun in between (non-interleaved execution),
`getRequestContext()` returns the invocation's own context. -/
theorem C2_store_key_isolation :
    (∀ (req1 req2 : Request) (s : Store),
      (setupCtx [] req2 (setupCtx [] req1 s).2).1 ≠ (setupCtx [] req1 s).1)
    ∧ (∀ (req1 req2 : Request) (s : Store),
      lookupCtx ((setupCtx [] req2 (setupCtx [] req1 s).2).2).contextStorage
          (setupCtx [] req1 s).1
        = lookupCtx ((setupCtx [] req1 s).2).contextStorage (setupCtx [] req1 s).1)
    ∧ ∀ (req : Request) (s : Store),
      getRequestContext (setupCtx [] req s).2
        = .ok { request := req, headers := req.headers, responseHeaders := [],
                responseStatus := 200 } := by
  refine ⟨?_, ?_, ?_⟩
  · intro req1 req2 s
    simp [setupCtx]
  · intro req1 req2 s
    simp [setupCtx, lookupCtx]
  · intro req s
    simp [setupCtx, getRequestContext, lookupCtx]

/-! ## Middleware-chain lemmas -/

theorem runMw_okMws :
    ∀ (vals : List JValue) (i : Nat) (d : JValue) (req : Request) (s : Store),
    ∃ dOut, runMiddlewares req (okMws i vals) d s
      = (.ok dOut,
         { s with events := s.events ++ (List.range' i vals.length).map Ev.mwCalled }) := by
  intro vals
  induction vals with
  | nil =>
    intro i d req s
    exact ⟨d, by simp [okMws, runMiddlewares, List.range']⟩
  | cons v vs ih =>
    intro i d req s
    obtain ⟨dOut, hrec⟩ := ih (i + 1) v req
      { s with events := s.events ++ [Ev.mwCalled i] }
    refine ⟨dOut, ?_⟩
    simp only [okMws, runMiddlewares, instrMw, hrec]
    simp [List.range']

theorem runMw_break :
    ∀ (vals : List JValue) (i : Nat) (e : JErr) (tailMws : List Mw) (d : JValue)
      (req : Request) (s : Store),
    runMiddlewares req (okMws i vals ++ instrMw (i + vals.length) (.error e) :: tailMws)
        d s
      = (.error e,
         { s with events :=
            s.events ++ (List.range' i (vals.length + 1)).map Ev.mwCalled }) := by
  intro vals
  induction vals with
  | nil =>
    intro i e tailMws d req s
    simp [okMws, runMiddlewares, instrMw, List.range']
  | cons v vs ih =>
    intro i e tailMws d req s
    have hidx : i + (v :: vs).length = (i + 1) + vs.length := by
      simp
      omega
    rw [hidx]
    have hrec := ih (i + 1) e tailMws v req
      { s with events := s.events ++ [Ev.mwCalled i] }
    simp only [okMws, List.cons_append, List.append_eq, runMiddlewares, instrMw]
    rw [hrec]
    simp [List.range']

/-- C5: with `N` middlewares on a registered function, one invocation runs
each exactly once, in declaration order, before the handler; and if
middleware `k+1` throws, the later middlewares and the handler never run and
the exception propagates to the executor boundary.  The ghost trace records
the invocations: `N` succeeding instrumented middlewares yield exactly the
events `mwCalled 0, ..., mwCalled (N-1), handlerCalled`; with a throwing
middleware after `k` succeeding ones the events stop at `mwCalled k`, the
result is the thrown error, and the arbitrary `tailMws` contribute
nothing. -/
theorem C5_middleware_order_and_short_circuit :
    (∀ (vals : List JValue) (ret : JValue) (req : Request) (s : Store)
        (input : Option JValue),
      (executeServerFn (mwReg vals ret) "f" input req s).1 = .ok ret
      ∧ ((executeServerFn (mwReg vals ret) "f" input req s).2).events
          = s.events ++ (List.range' 0 vals.length).map Ev.mwCalled
            ++ [Ev.handlerCalled])
    ∧ ∀ (vals : List JValue) (e : JErr) (tailMws : List Mw) (ret : JValue)
        (req : Request) (s : Store) (input : Option JValue),
      (executeServerFn (mwBreakReg vals e tailMws ret) "f" input req s).1 = .error e
      ∧ ((executeServerFn (mwBreakReg vals e tailMws ret) "f" input req s).2).events
          = s.events ++ (List.range' 0 (vals.length + 1)).map Ev.mwCalled := by
  constructor
  · intro vals ret req s input
    obtain ⟨dOut, hrun⟩ := runMw_okMws vals 0 (.jobj [])
      req (setupCtx [] req s).2
    simp only [setupCtx] at hrun
    have hcfg : findCfg (mwReg vals ret) "f"
        = some { name := "f", middlewares := okMws 0 vals,
                 handler? := some (instrHandler ret) } := by
      simp [mwReg, findCfg]
    constructor <;>
      simp [executeServerFn, hcfg, execBody, hrun, instrHandler, exCleanup, setupCtx]
  · intro vals e tailMws ret req s input
    have hrun := runMw_break vals 0 e tailMws (.jobj []) req (setupCtx [] req s).2
    simp only [Nat.zero_add, setupCtx] at hrun
    have hcfg : findCfg (mwBreakReg vals e tailMws ret) "f"
        = some { name := "f",
                 middlewares := okMws 0 vals ++ instrMw vals.length (.error e) :: tailMws,
                 handler? := some (instrHandler ret) } := by
      simp [mwBreakReg, findCfg]
    constructor <;>
      simp [executeServerFn, hcfg, execBody, hrun, exCleanup, setupCtx]

/-- C1 (evaluation of the code at the failing input): a handler that calls
`setResponseHeader("X-Test", "yes")` and `setResponseStatus(201)` and
returns `"ok"` gets a response with status `200` and without the `X-Test`
header — the handler's writes go to the context `executeServerFn` installs,
while `handleServerFn` builds the `Response` from its own outer context, so
the context the middlewares and handler wrote to is not the one the response
is built from. -/
theorem C1_success_response_ignores_handler_metadata :
    (handleServerFn setHeaderReg (postReq "f" "null") initStore).1
      = .ok { status := 200, headers := [("Content-Type", "application/json")],
              body := some "\"ok\"" }
    ∧ (200 : Nat) ≠ 201
    ∧ hget [("Content-Type", "application/json")] "X-Test" = none :=
  ⟨rfl, by omega, rfl⟩

/-- C4 (evaluation of the code at the failing input): on a malformed JSON
body `JSON.parse` throws before the `try` block of `handleServerFn`, so the
exception escapes to the transport instead of becoming a `Response`. -/
theorem C4_malformed_body_escapes :
    handleServerFn echoReg (postReq "f" "\x7b") initStore
      = (.error (.syntaxErr "Unexpected token in JSON"), initStore) := rfl

/-- C7: a handler — or a middleware — that calls `redirect(url, 303)` makes
`handleServerFn` return a response with status 303, a `Location` header
equal to `url`, and a null body. -/
theorem C7_redirect_303 (url : String) :
    (∃ r, (handleServerFn (redirHandlerReg url) (postReq "go" "null") initStore).1
        = .ok r
      ∧ r.status = 303 ∧ hget r.headers "Location" = some url ∧ r.body = none)
    ∧ ∃ r, (handleServerFn (redirMwReg url) (postReq "go" "null") initStore).1
        = .ok r
      ∧ r.status = 303 ∧ hget r.headers "Location" = some url ∧ r.body = none :=
  ⟨⟨_, rfl, rfl, rfl, rfl⟩, ⟨_, rfl, rfl, rfl, rfl⟩⟩

/-- C10: `JSON.parse` inverts `JSON.stringify` on every modelled value, and
a POST invocation without a validator hands the handler exactly the value
the client serialized — with the echo handler the response body is the
serialization of the original value. -/
theorem C10_json_post_roundtrip (v : JValue) :
    jparse (jstringify v) = .ok v
    ∧ (executeServerFn echoReg "f" (some v) (postReq "f" (jstringify v))
        initStore).1 = .ok v
    ∧ (handleServerFn echoReg (postReq "f" (jstringify v)) initStore).1
        = .ok { status := 200, headers := [("Content-Type", "application/json")],
                body := some (jstringify v) } := by
  refine ⟨jparse_jstringify v, ?_, ?_⟩
  · simp [executeServerFn, findCfg, echoReg, execBody, runMiddlewares, echoHandler,
      setupCtx, exCleanup]
  · have hp := parseRequestPhase_postF v
    simp [handleServerFn, hp, executeServerFn, findCfg, echoReg, execBody,
      runMiddlewares, echoHandler, setupCtx, exCleanup, lookupCtx]

/-- C6: with a validator registered, an input the validator rejects yields a
400 response whose JSON body carries the structured per-field issues (path
and message); an input the validator accepts flows into the handler and
yields the normal success response, never a validation error. -/
theorem C6_validation_error_responses :
    (∀ (v : Validator) (bodyV : JValue) (issues : List (List (List Char) × List Char)),
      v (some bodyV) = .error (.zodErr issues) →
      (handleServerFn (valReg v) (postReq "f" (jstringify bodyV)) initStore).1
        = .ok { status := 400, headers := [("Content-Type", "application/json")],
                body := some (jstringify (.jobj
                  [("error".data, .jstr "Validation failed".data),
                   ("details".data, .jarr (issues.map issueToJ))])) })
    ∧ ∀ (v : Validator) (bodyV : JValue) (out : Option JValue),
      v (some bodyV) = .ok out →
      (handleServerFn (valReg v) (postReq "f" (jstringify bodyV)) initStore).1
        = .ok { status := 200, headers := [("Content-Type", "application/json")],
                body := some (jstringify (out.getD .jnull)) } := by
  constructor
  · intro v bodyV issues hv
    have hp := parseRequestPhase_postF bodyV
    simp [handleServerFn, hp, executeServerFn, findCfg, valReg, execBody, hv,
      setupCtx, exCleanup, lookupCtx]
  · intro v bodyV out hv
    have hp := parseRequestPhase_postF bodyV
    simp [handleServerFn, hp, executeServerFn, findCfg, valReg, execBody, hv,
      runMiddlewares, echoHandler, setupCtx, exCleanup, lookupCtx]

/-- Witness for C6 with the spec's echo validator: the empty message is
rejected with a 400 carrying a per-field issue for `message`; the message
`"abc"` is accepted and echoed back with status 200. -/
theorem C6_validation_error_responses_witness :
    (handleServerFn (valReg echoValidator)
        (postReq "f" (jstringify (.jobj [("message".data, .jstr [])]))) initStore).1
      = .ok { status := 400, headers := [("Content-Type", "application/json")],
              body := some (jstringify (.jobj
                [("error".data, .jstr "Validation failed".data),
                 ("details".data, .jarr
                   ([(["message".data],
                      "String must contain at least 1 character(s)".data)].map
                     issueToJ))])) }
    ∧ (handleServerFn (valReg echoValidator)
        (postReq "f" (jstringify (.jobj [("message".data, .jstr "abc".data)])))
        initStore).1
      = .ok { status := 200, headers := [("Content-Type", "application/json")],
              body := some (jstringify
                ((some (.jobj [("message".data, .jstr "abc".data)])).getD .jnull)) } :=
  ⟨C6_validation_error_responses.1 echoValidator (.jobj [("message".data, .jstr [])])
      [(["message".data], "String must contain at least 1 character(s)".data)] rfl,
   C6_validation_error_responses.2 echoValidator
      (.jobj [("message".data, .jstr "abc".data)])
      (some (.jobj [("message".data, .jstr "abc".data)])) rfl⟩

/-! ## SSR-config lookup lemmas -/

theorem findTemplated_none (m : SSRConfigMap) (p : String)
    (h : ∀ q ∈ m, ¬(q.1.data.contains ':' = true ∧ patternTest q.1 p = true)) :
    findTemplated p m = none := by
  induction m with
  | nil => rfl
  | cons q rest ih =>
    obtain ⟨pat, c⟩ := q
    have hq := h (pat, c) (List.mem_cons_self _ _)
    have hcond : (pat.data.contains ':' && patternTest pat p) = false := by
      cases h1 : pat.data.contains ':' <;> cases h2 : patternTest pat p <;>
        simp_all
    rw [findTemplated, hcond]
    simp only [Bool.false_eq_true, if_false]
    exact ih (fun q hq2 => h q (List.mem_cons_of_mem _ hq2))

theorem findTemplated_first (m1 : SSRConfigMap) (pat : String) (c : RouteSSRConfig)
    (m2 : SSRConfigMap) (p : String)
    (h1 : ∀ q ∈ m1, ¬(q.1.data.contains ':' = true ∧ patternTest q.1 p = true))
    (h2 : pat.data.contains ':' = true) (h3 : patternTest pat p = true) :
    findTemplated p (m1 ++ (pat, c) :: m2) = some c := by
  induction m1 with
  | nil =>
    rw [List.nil_append, findTemplated, h2, h3]
    rfl
  | cons q rest ih =>
    obtain ⟨pat0, c0⟩ := q
    have hq := h1 (pat0, c0) (List.mem_cons_self _ _)
    have hcond : (pat0.data.contains ':' && patternTest pat0 p) = false := by
      cases ha : pat0.data.contains ':' <;> cases hb : patternTest pat0 p <;>
        simp_all
    rw [List.cons_append, findTemplated, hcond]
    simp only [Bool.false_eq_true, if_false]
    exact ih (fun q hq2 => h1 q (List.mem_cons_of_mem _ hq2))

/-- C8: `getRouteSSRConfig` returns the exact-match entry when one exists;
otherwise the config of the first registered templated pattern (one
containing `':'`) whose derived regex matches the path; otherwise the
default full-SSR config.  `shouldSSR` is false exactly when the looked-up
config has `ssr = false`, and `isDataOnlySSR` is true exactly when it has
`ssr = 'data-only'`. -/
theorem C8_ssr_config_lookup :
    (∀ (m : SSRConfigMap) (p : String) (c : RouteSSRConfig),
      lookupSSR m p = some c → getRouteSSRConfig m p = c)
    ∧ (∀ (m1 : SSRConfigMap) (pat : String) (c : RouteSSRConfig)
        (m2 : SSRConfigMap) (p : String),
      lookupSSR (m1 ++ (pat, c) :: m2) p = none →
      (∀ q ∈ m1, ¬(q.1.data.contains ':' = true ∧ patternTest q.1 p = true)) →
      pat.data.contains ':' = true → patternTest pat p = true →
      getRouteSSRConfig (m1 ++ (pat, c) :: m2) p = c)
    ∧ (∀ (m : SSRConfigMap) (p : String),
      lookupSSR m p = none →
      (∀ q ∈ m, ¬(q.1.data.contains ':' = true ∧ patternTest q.1 p = true)) →
      getRouteSSRConfig m p = { ssr? := some .strue })
    ∧ (∀ (m : SSRConfigMap) (p : String),
      shouldSSR m p = false ↔ (getRouteSSRConfig m p).ssr? = some .sfalse)
    ∧ ∀ (m : SSRConfigMap) (p : String),
      isDataOnlySSR m p = true ↔ (getRouteSSRConfig m p).ssr? = some .dataOnly := by
  refine ⟨?_, ?_, ?_, ?_, ?_⟩
  · intro m p c h
    simp [getRouteSSRConfig, h]
  · intro m1 pat c m2 p hnone hm1 hpat htest
    simp [getRouteSSRConfig, hnone, findTemplated_first m1 pat c m2 p hm1 hpat htest]
  · intro m p hnone hm
    simp [getRouteSSRConfig, hnone, findTemplated_none m p hm]
  · intro m p
    simp [shouldSSR]
  · intro m p
    simp [isDataOnlySSR]

/-- Witness for C8 on a concrete map: exact match, first-templated match,
default, and the two predicates. -/
theorem C8_ssr_config_lookup_witness :
    getRouteSSRConfig demoCfgs "/admin" = { ssr? := some .sfalse }
    ∧ getRouteSSRConfig demoCfgs "/posts/7" = { ssr? := some .dataOnly }
    ∧ getRouteSSRConfig demoCfgs "/x" = { ssr? := some .strue }
    ∧ shouldSSR demoCfgs "/admin" = false
    ∧ isDataOnlySSR demoCfgs "/posts/7" = true := by
  have h1 := C8_ssr_config_lookup.1 demoCfgs "/admin" { ssr? := some .sfalse } rfl
  have h2 : getRouteSSRConfig demoCfgs "/posts/7" = { ssr? := some .dataOnly } :=
    C8_ssr_config_lookup.2.1 [("/admin", { ssr? := some .sfalse })]
      "/posts/:id" { ssr? := some .dataOnly } [] "/posts/7" rfl (by decide) (by decide)
      (by decide)
  have h3 := C8_ssr_config_lookup.2.2.1 demoCfgs "/x" rfl (by decide)
  refine ⟨h1, h2, h3, ?_, ?_⟩
  · exact (C8_ssr_config_lookup.2.2.2.1 demoCfgs "/admin").mpr (by rw [h1])
  · exact (C8_ssr_config_lookup.2.2.2.2 demoCfgs "/posts/7").mpr (by rw [h2])

/-- C9: when a path's SSR config resolves to client-only (`ssr: false`), the
page dispatcher answers status 200 with the static shell whose only
interpolated content is the requested URL (assigned to
`window.__INITIAL_URL__`), and the render routine is not invoked — the
response is the same for every render routine. -/
theorem C9_client_only_shell (cfgs : SSRConfigMap)
    (render render' : String → Except String String) (timestamp : String)
    (pathname search : String) (h : shouldSSR cfgs pathname = false) :
    serveSSR cfgs render timestamp pathname search
      = { status := 200, headers := [("Content-Type", "text/html; charset=utf-8")],
          body := clientShellPre ++ (pathname ++ search) ++ clientShellPost,
          renderInvoked := false }
    ∧ serveSSR cfgs render timestamp pathname search
        = serveSSR cfgs render' timestamp pathname search := by
  constructor <;> simp [serveSSR, h, createClientOnlyShell]

/-- Witness for C9: `/admin` registered as client-only yields the shell for
`/admin` with status 200, untouched by a render routine that would have
produced markup. -/
theorem C9_client_only_shell_witness :
    shouldSSR adminCfgs "/admin" = false
    ∧ serveSSR adminCfgs (fun _ => .ok "<div data-render>APP</div>") "2026-10-11"
        "/admin" ""
      = { status := 200, headers := [("Content-Type", "text/html; charset=utf-8")],
          body := clientShellPre ++ ("/admin" ++ "") ++ clientShellPost,
          renderInvoked := false } :=
  ⟨rfl,
   (C9_client_only_shell adminCfgs (fun _ => .ok "<div data-render>APP</div>")
      (fun _ => .error "unused") "2026-10-11" "/admin" "" rfl).1⟩

end TanstackBun
